import Mathlib

/-!
Verification of the BallsDex community-challenge progress/completion engine.

The definitions below are a shallow embedding of
`community_challenge/community_challenge/cog.py` (class `CommunityChallenges`)
together with the persisted schema from `community_challenge/models.py` and
`community_challenge/migrations/0002_fix_schema.py`:

* database rows become Lean structures (display-only columns such as `name`,
  `description`, `created_at` and timestamps that no theorem mentions are
  omitted; `completed_at` is kept, as an abstract `Option Nat` clock value);
* Django querysets become list traversals over an explicit `DB` value;
* the cog's in-process state (the `_completing` set, the active-challenge
  cache and its dirty bit, and the announcement side effects) becomes an
  explicit `CogState` record threaded through the operations;
* `IntegrityError` on `ChallengeReward.acreate` is raised exactly by the
  `(challenge, player)` uniqueness constraint
  (`cc_unique_reward_per_challenge`), so `_issue_reward` is embedded as a
  total function returning whether a fresh row was inserted;
* Python integers are unbounded, so contribution amounts are `Int`.
-/

namespace CommunityChallenge

/-- Challenge kinds used by the cog (`ChallengeType` members referenced in
`cog.py`: the four catch kinds consulted by `_catch_matches_challenge`, the
event kinds of the other handlers, and the three snapshot kinds). -/
inductive ChallengeType
  | catchAny
  | catchSpecific
  | catchSpecial
  | catchSpecificSpecial
  | guessWrong
  | trade
  | ballsOwned
  | uniqueBalls
  | specialsOwned
deriving DecidableEq, Repr

/-- A `CommunityChallenge` row (schema of `0002_fix_schema.py` plus the
`ball_filter_id` / `special_filter_id` columns added by
`0003_add_missing_filter_columns.py`). -/
structure Challenge where
  pk : Nat
  challenge_type : ChallengeType
  ball_filter_id : Option Nat
  special_filter_id : Option Nat
  target_amount : Nat
  reward_balls : Nat
  enabled : Bool
  completed : Bool
  completed_at : Option Nat
deriving DecidableEq, Repr

/-- A `ChallengeProgress` row: cumulative contribution of one player to one
challenge, unique per `(challenge, player)` pair in the database. -/
structure ProgressEntry where
  challenge_id : Nat
  player_id : Nat
  amount : Int
deriving DecidableEq, Repr

/-- A `ChallengeReward` row: the reward ledger, unique per
`(challenge, player)` pair (`cc_unique_reward_per_challenge`). -/
structure RewardRecord where
  challenge_id : Nat
  player_id : Nat
  balls_given : Nat
deriving DecidableEq, Repr

/-- The persistent store: the three community-challenge tables. -/
structure DB where
  challenges : List Challenge
  progress : List ProgressEntry
  rewards : List RewardRecord
deriving DecidableEq, Repr

/-- The `CatchEvent` dataclass of `cog.py`. -/
structure CatchEvent where
  instance_id : Nat
  ball_id : Nat
  player_id : Nat
  discord_id : Nat
  special_id : Option Nat
  is_special : Bool
deriving DecidableEq, Repr

/-- In-process cog state: the database plus `self._completing`,
`self._cache` / `self._cache_dirty`, the log of `_announce` invocations
(challenge pk, rewarded count), and a clock supplying `timezone.now()`. -/
structure CogState where
  db : DB
  completing : List Nat
  cache : List Challenge
  cache_dirty : Bool
  announce_log : List (Nat × Nat)
  now : Nat
deriving DecidableEq, Repr

/-! ## Queries over the tables -/

/-- Point lookup of the unique `(challenge, player)` progress row. -/
def find_progress (l : List ProgressEntry) (c p : Nat) : Option ProgressEntry :=
  l.find? (fun e => e.challenge_id == c && e.player_id == p)

/-- `CommunityChallenge.objects.aget(pk=...)` (point lookup, fresh read). -/
def find_challenge (db : DB) (pk : Nat) : Option Challenge :=
  db.challenges.find? (fun c => c.pk == pk)

/-- Rows of `ChallengeProgress.objects.filter(challenge=challenge)`. -/
def challenge_entries (db : DB) (c : Nat) : List ProgressEntry :=
  db.progress.filter (fun e => e.challenge_id == c)

/-- List-level sum of amounts for one challenge. -/
def sum_for (l : List ProgressEntry) (c : Nat) : Int :=
  ((l.filter (fun e => e.challenge_id == c)).map (fun e => e.amount)).sum

/-- `aggregate(total=Sum("amount"))["total"] or 0` for one challenge: the
aggregate of an empty set is `None`, read back as 0. -/
def challenge_sum (db : DB) (c : Nat) : Int :=
  sum_for db.progress c

/-- Whether a `ChallengeReward` row exists for the pair: exactly the
condition under which `acreate` raises the uniqueness `IntegrityError`. -/
def has_reward (db : DB) (c p : Nat) : Bool :=
  db.rewards.any (fun r => r.challenge_id == c && r.player_id == p)

/-! ## `add_progress` (cog.py lines 205-224) -/

/-- `ChallengeProgress.objects.select_for_update().get_or_create(challenge=...,
player=..., defaults=(amount: 0))`: create the row with `amount 0` when the
pair has no row yet. -/
def get_or_create_progress (l : List ProgressEntry) (c p : Nat) : List ProgressEntry :=
  if (find_progress l c p).isSome then l else l ++ [⟨c, p, 0⟩]

/-- `entry.amount += amount; entry.save(update_fields=["amount", "last_updated"])`:
update the unique matching row (the pair is unique in the database, so the
first match is the row). -/
def save_amount : List ProgressEntry → Nat → Nat → Int → List ProgressEntry
  | [], _, _, _ => []
  | e :: rest, c, p, d =>
    if e.challenge_id == c && e.player_id == p then
      { e with amount := e.amount + d } :: rest
    else
      e :: save_amount rest c p d

/-- `CommunityChallenges.add_progress`: get-or-create the pair's row with
amount 0, add `amount` to it, then return the recomputed sum of all players'
amounts for the challenge.  The Python code performs no validation of
`amount` whatsoever. -/
def add_progress (db : DB) (c p : Nat) (amount : Int) : DB × Int :=
  let l1 := get_or_create_progress db.progress c p
  let l2 := save_amount l1 c p amount
  let db' : DB := { db with progress := l2 }
  (db', challenge_sum db' c)

/-! ## Matching (cog.py lines 226-253) -/

/-- `CommunityChallenges._catch_matches_challenge`, translated branch by
branch from cog.py lines 226-253. -/
def catch_matches_challenge (challenge : Challenge) (event : CatchEvent) : Bool :=
  match challenge.challenge_type with
  | .catchAny => true
  | .catchSpecific =>
      challenge.ball_filter_id.isSome && challenge.ball_filter_id == some event.ball_id
  | .catchSpecial => event.is_special
  | .catchSpecificSpecial =>
      if !event.is_special then false
      else
        match challenge.special_filter_id with
        | none => true
        | some s => some s == event.special_id
  | _ => false

/-! ## Cache (cog.py lines 152-167) -/

/-- `CommunityChallenge.objects.filter(enabled=True, completed=False)`. -/
def active_challenges (db : DB) : List Challenge :=
  db.challenges.filter (fun c => c.enabled && !c.completed)

/-- `_refresh_cache`. -/
def refresh_cache (s : CogState) : CogState :=
  { s with cache := active_challenges s.db, cache_dirty := false }

/-- `_ensure_cache`: refresh when dirty, then return the cached list. -/
def ensure_cache (s : CogState) : CogState × List Challenge :=
  let s' := if s.cache_dirty then refresh_cache s else s
  (s', s'.cache)

/-! ## Rewards (cog.py lines 330-336 and 344-353) -/

/-- `CommunityChallenges._issue_reward`: `ChallengeReward.objects.acreate`
returning `True`, with the pair-uniqueness `IntegrityError` caught and turned
into `False`.  A violation occurs exactly when the pair already has a row. -/
def issue_reward (db : DB) (challenge : Challenge) (p : Nat) : DB × Bool :=
  if has_reward db challenge.pk p then
    (db, false)
  else
    ({ db with rewards := db.rewards ++ [⟨challenge.pk, p, challenge.reward_balls⟩] }, true)

/-- Rows of `ChallengeProgress.objects.filter(challenge=challenge, amount__gt=0)`. -/
def pos_entries (db : DB) (c : Nat) : List ProgressEntry :=
  db.progress.filter (fun e => e.challenge_id == c && 0 < e.amount)

/-- The reward loop of `_complete_challenge`: issue a reward per enumerated
entry, accumulating the count of newly created rows. -/
def reward_loop : DB → Challenge → List ProgressEntry → DB × Nat
  | db, _, [] => (db, 0)
  | db, c, e :: rest =>
    let r1 := issue_reward db c e.player_id
    let r2 := reward_loop r1.1 c rest
    (r2.1, (if r1.2 then 1 else 0) + r2.2)

/-- The reward step of `_complete_challenge` (cog.py lines 330-336): when
`reward_balls > 0`, enumerate the challenge's entries with `amount > 0` and
issue each player a reward, counting the newly created rows. -/
def completion_rewards (db : DB) (c : Challenge) : DB × Nat :=
  if 0 < c.reward_balls then reward_loop db c (pos_entries db c.pk) else (db, 0)

/-! ## Completion (cog.py lines 308-342) -/

/-- `challenge.asave(update_fields=["completed", "completed_at"])`: write the
`completed` and `completed_at` columns of the row with the object's pk. -/
def save_challenge_completion (db : DB) (c : Challenge) : DB :=
  { db with
    challenges := db.challenges.map (fun ch =>
      if ch.pk == c.pk then
        { ch with completed := c.completed, completed_at := c.completed_at }
      else ch) }

/-- The persist step of `_complete_challenge` (cog.py lines 326-328):
`challenge.completed = True; challenge.completed_at = timezone.now();
await challenge.asave(update_fields=["completed", "completed_at"])`. -/
def persist_completion (db : DB) (challenge : Challenge) (now : Nat) : DB :=
  save_challenge_completion db { challenge with completed := true, completed_at := some now }

/-- `CommunityChallenges._complete_challenge`: persist the completion flags,
run the reward step, then `_announce(challenge, rewarded)` (modelled as an
append to the announcement log). -/
def complete_challenge (s : CogState) (challenge : Challenge) : CogState :=
  let db1 := persist_completion s.db challenge s.now
  let r := completion_rewards db1 { challenge with completed := true, completed_at := some s.now }
  { s with db := r.1, announce_log := s.announce_log ++ [(challenge.pk, r.2)] }

/-- `CommunityChallenges.check_and_complete`: fast-reject on the caller's
(possibly stale) view, fresh re-read by pk, re-check of `completed` and of
the in-process `_completing` set, then the completion sequence with a
`finally` that discards the marker and invalidates the cache.  (The source
has no handler for `aget` raising `DoesNotExist`; the `none` branch is
unreachable for challenges present in the store.) -/
def check_and_complete (s : CogState) (challenge : Challenge) (total : Int) : CogState :=
  if total < (challenge.target_amount : Int) || challenge.completed then s
  else
    match find_challenge s.db challenge.pk with
    | none => s
    | some refreshed =>
      if refreshed.completed || s.completing.contains challenge.pk then s
      else
        let s1 := { s with completing := s.completing ++ [challenge.pk] }
        let s2 := complete_challenge s1 refreshed
        { s2 with completing := s2.completing.erase challenge.pk, cache_dirty := true }

/-! ## `handle_catch` (cog.py lines 255-274) -/

/-- The four catch challenge kinds selected by `handle_catch`. -/
def catch_types : List ChallengeType :=
  [.catchAny, .catchSpecific, .catchSpecial, .catchSpecificSpecial]

/-- The loop body of `handle_catch`: for each cached challenge that matches
the event, add one unit of progress for the player and check completion. -/
def process_catch (ev : CatchEvent) : CogState → List Challenge → CogState
  | s, [] => s
  | s, c :: rest =>
    if catch_matches_challenge c ev then
      let r := add_progress s.db c.pk ev.player_id 1
      let s1 := check_and_complete { s with db := r.1 } c r.2
      process_catch ev s1 rest
    else
      process_catch ev s rest

/-- `CommunityChallenges.handle_catch`. -/
def handle_catch (s : CogState) (ev : CatchEvent) : CogState :=
  let r := ensure_cache s
  let catch_challenges := r.2.filter (fun c => catch_types.contains c.challenge_type)
  if catch_challenges.isEmpty then r.1
  else process_catch ev r.1 catch_challenges

/-- The loop body of `handle_catch` when the storage layer can fail: the
increment of a challenge whose pk is in `fails` raises a storage error.  The
source loop wraps no `try` around its body, so the exception propagates out
of `handle_catch`; the error value carries the state at the moment of the
raise (mutations already applied to earlier challenges persist). -/
def process_catch_failing (fails : List Nat) (ev : CatchEvent) :
    CogState → List Challenge → Except CogState CogState
  | s, [] => .ok s
  | s, c :: rest =>
    if catch_matches_challenge c ev then
      if fails.contains c.pk then .error s
      else
        let r := add_progress s.db c.pk ev.player_id 1
        let s1 := check_and_complete { s with db := r.1 } c r.2
        process_catch_failing fails ev s1 rest
    else
      process_catch_failing fails ev s rest

/-- `handle_catch` under storage-failure injection. -/
def handle_catch_failing (fails : List Nat) (s : CogState) (ev : CatchEvent) :
    Except CogState CogState :=
  let r := ensure_cache s
  let catch_challenges := r.2.filter (fun c => catch_types.contains c.challenge_type)
  if catch_challenges.isEmpty then .ok r.1
  else process_catch_failing fails ev r.1 catch_challenges

/-! ## Display queries (cog.py lines 191-199) -/

/-- `CommunityChallenges._top_contributors`:
`ChallengeProgress.objects.filter(challenge=challenge).order_by("-amount")[:limit]`
(descending by amount, ties in unspecified stable order, truncated; no lower
bound on `amount`). -/
def top_contributors (db : DB) (c : Nat) (limit : Nat) : List ProgressEntry :=
  ((challenge_entries db c).mergeSort (fun a b => decide (b.amount ≤ a.amount))).take limit

/-! ## Derived predicates used by the statements -/

/-- Number of reward-ledger rows for a `(challenge, player)` pair. -/
def reward_count (db : DB) (c p : Nat) : Nat :=
  (db.rewards.filter (fun r => r.challenge_id == c && r.player_id == p)).length

/-- Whether the player has a strictly positive contribution entry for the
challenge. -/
def has_pos (db : DB) (c p : Nat) : Bool :=
  db.progress.any (fun e => e.challenge_id == c && e.player_id == p && 0 < e.amount)

/-- Iterate the completion reward step. -/
def iterate_rewards (c : Challenge) : Nat → DB → DB
  | 0, db => db
  | n + 1, db => iterate_rewards c n (completion_rewards db c).1

/-- The `(challenge, player)` uniqueness constraint of `ChallengeProgress`
(`cc_unique_challenge_player`), as a decidable predicate on table contents. -/
def pairwise_uniqueb : List ProgressEntry → Bool
  | [] => true
  | e :: rest =>
    rest.all (fun x => !(x.challenge_id == e.challenge_id && x.player_id == e.player_id)) &&
    pairwise_uniqueb rest

/-- The spec invariant on a challenge table: a completed challenge carries a
completion timestamp. -/
def challenge_inv (db : DB) : Prop :=
  ∀ c ∈ db.challenges, c.completed = true → c.completed_at ≠ none

/-- Positional monotonicity of the `completed` flag between two table states. -/
def completed_monotone (db db' : DB) : Prop :=
  ∀ (i : Nat) (ch ch' : Challenge),
    db.challenges[i]? = some ch → db'.challenges[i]? = some ch' →
    ch.completed = true → ch'.completed = true

/-! ## Concurrency model for completion triggering

`check_and_complete` / `_complete_challenge` run as asyncio tasks; control
can change hands at each `await`.  The small-step relation below models any
number of concurrent `check_and_complete(challenge, total_i)` calls for one
challenge.  Each task carries its argument `total` and its possibly-stale
view of `challenge.completed`; the shared state holds the persisted row
fields touched by completion, the `_completing` membership for this
challenge, and counters for `completed_at` assignments and Announcer calls.

Steps, one per region between awaits of the source:
* `fast_reject` — cog.py line 311: stale-view check, outside the lock;
* `locked_reject` — lines 313-316: under `_completion_lock`, fresh read shows
  `completed`, or the pk is already in `_completing`: return, no mutation;
* `guard_pass` — lines 313-317: under the lock, fresh read not completed and
  pk not in `_completing`: add the pk to `_completing`;
* `save` — lines 326-328: persist `completed = True, completed_at = now`;
* `announce` — lines 330-342: reward loop and the single `_announce` call
  (rewards do not touch the fields modelled here);
* `cleanup` — lines 320-322: the `finally` block discards the marker. -/

/-- Control position of one `check_and_complete` task. -/
inductive TaskPhase
  | start
  | marked
  | saved
  | announced
  | finished
  | rejected
deriving DecidableEq, Repr

/-- One concurrent `check_and_complete(challenge, total)` call. -/
structure TriggerTask where
  total : Int
  stale_completed : Bool
  phase : TaskPhase
deriving DecidableEq, Repr

/-- Shared state of the completion race for a single challenge. -/
structure RaceState where
  tasks : List TriggerTask
  target : Int
  db_completed : Bool
  db_completed_at : Option Nat
  completing : Bool
  saves : Nat
  announces : Nat
deriving DecidableEq, Repr

/-- Interleaving semantics of concurrent completion triggers. -/
inductive RaceStep : RaceState → RaceState → Prop
  | fast_reject (s : RaceState) (i : Nat) (t : TriggerTask)
      (hget : s.tasks[i]? = some t) (hph : t.phase = .start)
      (hcond : t.total < s.target ∨ t.stale_completed = true) :
      RaceStep s { s with tasks := s.tasks.set i { t with phase := .rejected } }
  | locked_reject (s : RaceState) (i : Nat) (t : TriggerTask)
      (hget : s.tasks[i]? = some t) (hph : t.phase = .start)
      (hcond : ¬(t.total < s.target ∨ t.stale_completed = true))
      (hbusy : s.db_completed = true ∨ s.completing = true) :
      RaceStep s { s with tasks := s.tasks.set i { t with phase := .rejected } }
  | guard_pass (s : RaceState) (i : Nat) (t : TriggerTask)
      (hget : s.tasks[i]? = some t) (hph : t.phase = .start)
      (hcond : ¬(t.total < s.target ∨ t.stale_completed = true))
      (hdb : s.db_completed = false) (hcpl : s.completing = false) :
      RaceStep s { s with
        tasks := s.tasks.set i { t with phase := .marked },
        completing := true }
  | save (s : RaceState) (i : Nat) (t : TriggerTask) (now : Nat)
      (hget : s.tasks[i]? = some t) (hph : t.phase = .marked) :
      RaceStep s { s with
        tasks := s.tasks.set i { t with phase := .saved },
        db_completed := true,
        db_completed_at := some now,
        saves := s.saves + 1 }
  | announce (s : RaceState) (i : Nat) (t : TriggerTask)
      (hget : s.tasks[i]? = some t) (hph : t.phase = .saved) :
      RaceStep s { s with
        tasks := s.tasks.set i { t with phase := .announced },
        announces := s.announces + 1 }
  | cleanup (s : RaceState) (i : Nat) (t : TriggerTask)
      (hget : s.tasks[i]? = some t) (hph : t.phase = .announced) :
      RaceStep s { s with
        tasks := s.tasks.set i { t with phase := .finished },
        completing := false }

/-- The task currently holds the completion of the challenge: it is past the
guard and has not yet run its cleanup. -/
def is_live (t : TriggerTask) : Bool :=
  match t.phase with
  | .marked | .saved | .announced => true
  | _ => false

/-- The task has executed the persist step. -/
def is_persisted (t : TriggerTask) : Bool :=
  match t.phase with
  | .saved | .announced | .finished => true
  | _ => false

/-- The task has invoked the Announcer. -/
def is_heralded (t : TriggerTask) : Bool :=
  match t.phase with
  | .announced | .finished => true
  | _ => false

/-- The task passed the guard at some point (it is not pending or rejected). -/
def is_engaged (t : TriggerTask) : Bool :=
  match t.phase with
  | .marked | .saved | .announced | .finished => true
  | _ => false

/-- Inductive invariant of the completion race. -/
def race_inv (s : RaceState) : Prop :=
  s.tasks.countP is_live = (cond s.completing 1 0) ∧
  s.saves = s.tasks.countP is_persisted ∧
  s.announces = s.tasks.countP is_heralded ∧
  (s.db_completed = true ↔ 1 ≤ s.tasks.countP is_persisted) ∧
  s.tasks.countP is_engaged ≤ 1

/-- A valid initial race state: an active, not-yet-completing challenge and
any number of pending triggers. -/
def race_init (s : RaceState) : Prop :=
  (∀ t ∈ s.tasks, t.phase = .start) ∧
  s.db_completed = false ∧ s.completing = false ∧ s.saves = 0 ∧ s.announces = 0

/-- The pointwise effect of the persist step on a stored challenge row. -/
def complete_upd (pk0 now0 : Nat) (x : Challenge) : Challenge :=
  if x.pk == pk0 then { x with completed := true, completed_at := some now0 } else x

/-- One engine step on the challenge table: length preserved, the completion
invariant preserved, and the `completed` flag monotone. -/
def db_step (db db' : DB) : Prop :=
  db'.challenges.length = db.challenges.length ∧
  (challenge_inv db → challenge_inv db') ∧
  completed_monotone db db'

/-! ## Concrete instances used by counterexamples and witnesses -/

/-- Sample active challenge with target 100 and current total 99. -/
def sample_challenge : Challenge := ⟨1, .catchAny, none, none, 100, 0, true, false, none⟩

/-- Sample cog state holding `sample_challenge` with a clean cache. -/
def sample_state : CogState :=
  ⟨⟨[sample_challenge], [⟨1, 5, 99⟩], []⟩, [], [sample_challenge], false, [], 77⟩

/-- Sample catch event matching `sample_challenge`. -/
def sample_event : CatchEvent := ⟨9, 42, 7, 900, none, false⟩

/-- C6 counterexample challenge: kind CATCH_SPECIFIC, no filter set. -/
def C6_challenge : Challenge := ⟨1, .catchSpecific, none, none, 10, 0, true, false, none⟩

/-- C6 counterexample event: a catch. -/
def C6_event : CatchEvent := ⟨1, 42, 7, 900, none, false⟩

/-- C8 counterexample row: already completed at time 5. -/
def C8_challenge : Challenge := ⟨1, .catchAny, none, none, 100, 0, true, true, some 5⟩

/-- C8 counterexample store. -/
def C8_db : DB := ⟨[C8_challenge], [], []⟩

/-- C7 counterexample: two active CATCH_ANY challenges. -/
def C7_challengeA : Challenge := ⟨1, .catchAny, none, none, 50, 0, true, false, none⟩

/-- Second challenge of the C7 counterexample. -/
def C7_challengeB : Challenge := ⟨2, .catchAny, none, none, 50, 0, true, false, none⟩

/-- C7 counterexample cog state: both challenges cached, clean cache. -/
def C7_state : CogState :=
  ⟨⟨[C7_challengeA, C7_challengeB], [], []⟩, [], [C7_challengeA, C7_challengeB], false, [], 3⟩

/-- C7 counterexample event, matching both challenges. -/
def C7_event : CatchEvent := ⟨9, 42, 7, 900, none, false⟩

/-! ## Lemmas and claim theorems -/

theorem find_progress_cons_pos {e : ProgressEntry} {rest : List ProgressEntry} {c p : Nat}
    (hm : (e.challenge_id == c && e.player_id == p) = true) :
    find_progress (e :: rest) c p = some e :=
  List.find?_cons_of_pos rest hm

theorem find_progress_cons_neg {e : ProgressEntry} {rest : List ProgressEntry} {c p : Nat}
    (hm : ¬(e.challenge_id == c && e.player_id == p) = true) :
    find_progress (e :: rest) c p = find_progress rest c p :=
  List.find?_cons_of_neg rest hm

theorem sum_for_cons (e : ProgressEntry) (rest : List ProgressEntry) (c : Nat) :
    sum_for (e :: rest) c
      = (if (e.challenge_id == c) = true then e.amount else 0) + sum_for rest c := by
  by_cases hc : (e.challenge_id == c) = true <;> simp [sum_for, List.filter_cons, hc]

theorem find_progress_save_amount (l : List ProgressEntry) (c p : Nat) (d : Int) :
    find_progress (save_amount l c p d) c p
      = (find_progress l c p).map (fun e => { e with amount := e.amount + d }) := by
  induction l with
  | nil => rfl
  | cons e rest ih =>
    by_cases hm : (e.challenge_id == c && e.player_id == p) = true
    · have hm' : (({ e with amount := e.amount + d } : ProgressEntry).challenge_id == c
          && ({ e with amount := e.amount + d } : ProgressEntry).player_id == p) = true := hm
      rw [show save_amount (e :: rest) c p d
            = { e with amount := e.amount + d } :: rest by simp [save_amount, hm]]
      rw [find_progress_cons_pos hm, find_progress_cons_pos hm']
      rfl
    · rw [show save_amount (e :: rest) c p d = e :: save_amount rest c p d by
            simp [save_amount, hm]]
      rw [find_progress_cons_neg hm, find_progress_cons_neg hm]
      exact ih

theorem save_amount_of_none (l : List ProgressEntry) (c p : Nat) (d : Int)
    (h : find_progress l c p = none) : save_amount l c p d = l := by
  induction l with
  | nil => rfl
  | cons e rest ih =>
    by_cases hm : (e.challenge_id == c && e.player_id == p) = true
    · rw [find_progress_cons_pos hm] at h; exact absurd h (by simp)
    · rw [find_progress_cons_neg hm] at h
      simp [save_amount, hm, ih h]

theorem save_amount_append_of_none (l l2 : List ProgressEntry) (c p : Nat) (d : Int)
    (h : find_progress l c p = none) :
    save_amount (l ++ l2) c p d = l ++ save_amount l2 c p d := by
  induction l with
  | nil => rfl
  | cons e rest ih =>
    by_cases hm : (e.challenge_id == c && e.player_id == p) = true
    · rw [find_progress_cons_pos hm] at h; exact absurd h (by simp)
    · rw [find_progress_cons_neg hm] at h
      simp only [List.cons_append]
      simp [save_amount, hm, ih h]

theorem sum_for_save_amount (l : List ProgressEntry) (c p : Nat) (d : Int)
    (h : (find_progress l c p).isSome = true) :
    sum_for (save_amount l c p d) c = sum_for l c + d := by
  induction l with
  | nil => simp [find_progress] at h
  | cons e rest ih =>
    by_cases hm : (e.challenge_id == c && e.player_id == p) = true
    · have hc : (e.challenge_id == c) = true := ((Bool.and_eq_true _ _).mp hm).1
      rw [show save_amount (e :: rest) c p d
            = { e with amount := e.amount + d } :: rest by simp [save_amount, hm]]
      rw [sum_for_cons, sum_for_cons]
      simp only [hc, if_pos]
      ring
    · rw [find_progress_cons_neg hm] at h
      rw [show save_amount (e :: rest) c p d = e :: save_amount rest c p d by
            simp [save_amount, hm]]
      rw [sum_for_cons, sum_for_cons, ih h]
      ring

theorem find_progress_append_new (l : List ProgressEntry) (c p : Nat)
    (h : find_progress l c p = none) :
    find_progress (l ++ [⟨c, p, 0⟩]) c p = some ⟨c, p, 0⟩ := by
  show List.find? _ _ = _
  rw [List.find?_append]
  rw [show List.find? (fun e => e.challenge_id == c && e.player_id == p) l = none from h]
  simp [Option.or]

theorem sum_for_append_zero (l : List ProgressEntry) (c p : Nat) :
    sum_for (l ++ [(⟨c, p, 0⟩ : ProgressEntry)]) c = sum_for l c := by
  simp [sum_for, List.filter_append, List.filter_cons]


theorem find_progress_get_or_create (l : List ProgressEntry) (c p : Nat) :
    (find_progress (get_or_create_progress l c p) c p).isSome = true := by
  by_cases h : (find_progress l c p).isSome = true
  · simp [get_or_create_progress, h]
  · have hn : find_progress l c p = none := by
      cases hf : find_progress l c p
      · rfl
      · rw [hf] at h; simp at h
    simp [get_or_create_progress, hn, find_progress_append_new l c p hn]

theorem sum_for_get_or_create (l : List ProgressEntry) (c p : Nat) :
    sum_for (get_or_create_progress l c p) c = sum_for l c := by
  by_cases h : (find_progress l c p).isSome = true
  · simp [get_or_create_progress, h]
  · have hn : find_progress l c p = none := by
      cases hf : find_progress l c p
      · rfl
      · rw [hf] at h; simp at h
    simp [get_or_create_progress, hn, sum_for_append_zero]

theorem add_progress_sum (db : DB) (c p : Nat) (d : Int) :
    (add_progress db c p d).2 = challenge_sum db c + d := by
  show challenge_sum _ c = _
  show sum_for (save_amount (get_or_create_progress db.progress c p) c p d) c = _
  rw [sum_for_save_amount _ c p d (find_progress_get_or_create db.progress c p)]
  rw [sum_for_get_or_create]
  rfl

theorem add_progress_challenges (db : DB) (c p : Nat) (d : Int) :
    (add_progress db c p d).1.challenges = db.challenges := rfl

theorem add_progress_rewards (db : DB) (c p : Nat) (d : Int) :
    (add_progress db c p d).1.rewards = db.rewards := rfl

theorem add_progress_find_new (db : DB) (c p : Nat) (d : Int)
    (h : find_progress db.progress c p = none) :
    find_progress (add_progress db c p d).1.progress c p = some ⟨c, p, d⟩ := by
  show find_progress (save_amount (get_or_create_progress db.progress c p) c p d) c p = _
  rw [find_progress_save_amount]
  rw [show get_or_create_progress db.progress c p = db.progress ++ [⟨c, p, 0⟩] by
        simp [get_or_create_progress, h]]
  rw [find_progress_append_new db.progress c p h]
  simp

theorem add_progress_find_existing (db : DB) (c p : Nat) (d : Int) (e : ProgressEntry)
    (h : find_progress db.progress c p = some e) :
    find_progress (add_progress db c p d).1.progress c p
      = some { e with amount := e.amount + d } := by
  show find_progress (save_amount (get_or_create_progress db.progress c p) c p d) c p = _
  rw [find_progress_save_amount]
  rw [show get_or_create_progress db.progress c p = db.progress by
        simp [get_or_create_progress, h]]
  rw [h]
  rfl


/-- C4: `add_progress` creates the missing `(challenge, player)` entry with
amount 0 before applying the delta (so the new entry stores exactly `delta`),
adds `delta` to an existing entry's amount, and returns the sum of all
players' amounts for the challenge after the update (which equals the prior
sum plus `delta`). -/
theorem C4_add_progress_increment (db : DB) (c p : Nat) (d : Int) (hd : 0 < d) :
    (find_progress db.progress c p = none →
      find_progress (add_progress db c p d).1.progress c p = some ⟨c, p, d⟩) ∧
    (∀ e : ProgressEntry, find_progress db.progress c p = some e →
      find_progress (add_progress db c p d).1.progress c p
        = some { e with amount := e.amount + d }) ∧
    (add_progress db c p d).2 = challenge_sum (add_progress db c p d).1 c ∧
    (add_progress db c p d).2 = challenge_sum db c + d := by
  refine ⟨fun h => add_progress_find_new db c p d h,
          fun e h => add_progress_find_existing db c p d e h, rfl,
          add_progress_sum db c p d⟩

/-- C4 witness: the contract instantiated at a one-entry store and delta 2. -/
theorem C4_witness :
    (0 : Int) < 2 ∧
    ((find_progress (DB.mk [] [⟨1, 7, 5⟩] []).progress 1 7 = none →
        find_progress (add_progress ⟨[], [⟨1, 7, 5⟩], []⟩ 1 7 2).1.progress 1 7
          = some ⟨1, 7, 2⟩) ∧
      (∀ e : ProgressEntry, find_progress (DB.mk [] [⟨1, 7, 5⟩] []).progress 1 7 = some e →
        find_progress (add_progress ⟨[], [⟨1, 7, 5⟩], []⟩ 1 7 2).1.progress 1 7
          = some { e with amount := e.amount + 2 }) ∧
      (add_progress ⟨[], [⟨1, 7, 5⟩], []⟩ 1 7 2).2
        = challenge_sum (add_progress ⟨[], [⟨1, 7, 5⟩], []⟩ 1 7 2).1 1 ∧
      (add_progress ⟨[], [⟨1, 7, 5⟩], []⟩ 1 7 2).2
        = challenge_sum ⟨[], [⟨1, 7, 5⟩], []⟩ 1 + 2) :=
  ⟨by decide, C4_add_progress_increment ⟨[], [⟨1, 7, 5⟩], []⟩ 1 7 2 (by decide)⟩

/-- C5 counterexample: the claim says a non-positive delta raises
`InvalidContributionError` before any storage mutation; but `add_progress`
on an empty store with delta 0 returns normally and creates a
`ChallengeProgress` row — a storage mutation the claim forbids.  No
validation of the delta exists anywhere in `add_progress`. -/
theorem C5_cex :
    (add_progress ⟨[], [], []⟩ 1 7 0).1.progress = [⟨1, 7, 0⟩] ∧
    (add_progress ⟨[], [], []⟩ 1 7 0).2 = 0 := by decide

/-- C5 amended: `add_progress` performs no validation of the delta and
raises nothing; a call with delta 0 for a pair with no entry still creates
the entry (with amount 0) and leaves the challenge total unchanged. -/
theorem C5_no_delta_validation (db : DB) (c p : Nat)
    (h : find_progress db.progress c p = none) :
    (add_progress db c p 0).1.progress = db.progress ++ [⟨c, p, 0⟩] ∧
    (add_progress db c p 0).2 = challenge_sum db c := by
  constructor
  · show save_amount (get_or_create_progress db.progress c p) c p 0 = _
    rw [show get_or_create_progress db.progress c p = db.progress ++ [⟨c, p, 0⟩] by
          simp [get_or_create_progress, h]]
    rw [save_amount_append_of_none db.progress _ c p 0 h]
    simp [save_amount]
  · rw [add_progress_sum]; ring

/-- C5 amended witness: the zero-delta call on an empty store. -/
theorem C5_witness :
    find_progress (DB.mk [] [] []).progress 1 7 = none ∧
    ((add_progress ⟨[], [], []⟩ 1 7 0).1.progress = [] ++ [⟨1, 7, 0⟩] ∧
     (add_progress ⟨[], [], []⟩ 1 7 0).2 = challenge_sum ⟨[], [], []⟩ 1) :=
  ⟨by decide, C5_no_delta_validation ⟨[], [], []⟩ 1 7 (by decide)⟩


theorem find_update_completion (l : List Challenge) (pk0 : Nat) (co : Bool) (ca : Option Nat)
    (ch : Challenge) (h : List.find? (fun x : Challenge => x.pk == pk0) l = some ch) :
    List.find? (fun x : Challenge => x.pk == pk0)
        (l.map (fun x => if x.pk == pk0 then { x with completed := co, completed_at := ca }
                         else x))
      = some { ch with completed := co, completed_at := ca } := by
  induction l with
  | nil => simp at h
  | cons a rest ih =>
    by_cases ha : (a.pk == pk0) = true
    · rw [List.find?_cons_of_pos (p := fun x : Challenge => x.pk == pk0) rest ha] at h
      injection h with h
      subst h
      simp only [List.map_cons, if_pos ha]
      exact List.find?_cons_of_pos (p := fun x : Challenge => x.pk == pk0) _ ha
    · rw [List.find?_cons_of_neg (p := fun x : Challenge => x.pk == pk0) rest ha] at h
      simp only [List.map_cons, if_neg ha]
      rw [List.find?_cons_of_neg (p := fun x : Challenge => x.pk == pk0) _ ha]
      exact ih h

theorem find_challenge_save (db : DB) (c : Challenge) (ch : Challenge)
    (h : find_challenge db c.pk = some ch) :
    find_challenge (save_challenge_completion db c) c.pk
      = some { ch with completed := c.completed, completed_at := c.completed_at } :=
  find_update_completion db.challenges c.pk c.completed c.completed_at ch h

/-- C6 counterexample: the claim says a challenge with no sub-category
filter set matches every event of its kind; but a CATCH_SPECIFIC challenge
with `ball_filter` unset matches no event at all
(`_catch_matches_challenge` requires `ball_filter_id is not None`). -/
theorem C6_cex :
    C6_challenge.ball_filter_id = none ∧ C6_challenge.special_filter_id = none ∧
    catch_matches_challenge C6_challenge C6_event = false := by decide

/-- C6 amended: the actual filter semantics of `_catch_matches_challenge`:
CATCH_ANY matches every catch event (filters ignored); CATCH_SPECIFIC
matches exactly the events whose ball equals a set ball filter, and matches
nothing when the filter is unset; CATCH_SPECIAL matches exactly the special
catches (its special filter is ignored); CATCH_SPECIFIC_SPECIAL matches the
special catches whose special equals the filter, or any special catch when
the filter is unset; other kinds match no catch event. -/
theorem C6_match_semantics (c : Challenge) (e : CatchEvent) :
    catch_matches_challenge c e = true ↔
      (c.challenge_type = .catchAny ∨
       (c.challenge_type = .catchSpecific ∧ c.ball_filter_id = some e.ball_id) ∨
       (c.challenge_type = .catchSpecial ∧ e.is_special = true) ∨
       (c.challenge_type = .catchSpecificSpecial ∧ e.is_special = true ∧
         (c.special_filter_id = none ∨ c.special_filter_id = e.special_id))) := by
  rcases c with ⟨pk, ct, bf, sf, ta, rb, en, co, ca⟩
  rcases e with ⟨iid, bid, pid, did, sid, isp⟩
  cases ct <;> cases isp <;> cases bf <;> cases sf <;>
    simp [catch_matches_challenge]

/-- C8 counterexample: the claim says the persisted completed-flag
transition is a conditional write that is a no-op when the stored value is
already true; but on a store whose row is already completed at time 5 the
persist step still writes, overwriting `completed_at` with the new time —
the store changes, so the write is not conditional. -/
theorem C8_cex :
    C8_db.challenges = [C8_challenge] ∧ C8_challenge.completed = true ∧
    persist_completion C8_db C8_challenge 9 ≠ C8_db := by decide

/-- C8 amended: the persist step of `_complete_challenge` is an
unconditional write: whatever the stored row held, afterwards the row has
`completed = true` and `completed_at = now`; a second racing attempt that
reaches the persist step overwrites `completed_at` rather than being a
no-op (the `completed` value itself stays true). -/
theorem C8_persist_unconditional (db : DB) (c : Challenge) (now : Nat) (ch : Challenge)
    (h : find_challenge db c.pk = some ch) :
    find_challenge (persist_completion db c now) c.pk
      = some { ch with completed := true, completed_at := some now } :=
  find_challenge_save db { c with completed := true, completed_at := some now } ch h

/-- C8 witness: the unconditional write applied to an already-completed
row. -/
theorem C8_witness :
    find_challenge C8_db C8_challenge.pk = some C8_challenge ∧
    find_challenge (persist_completion C8_db C8_challenge 9) C8_challenge.pk
      = some { C8_challenge with completed := true, completed_at := some 9 } :=
  ⟨by decide, C8_persist_unconditional C8_db C8_challenge 9 C8_challenge (by decide)⟩


theorem find_challenge_congr {db db' : DB} (pk : Nat) (h : db.challenges = db'.challenges) :
    find_challenge db pk = find_challenge db' pk := by
  unfold find_challenge
  rw [h]

theorem issue_reward_challenges (db : DB) (c : Challenge) (p : Nat) :
    (issue_reward db c p).1.challenges = db.challenges := by
  by_cases h : has_reward db c.pk p = true <;> simp [issue_reward, h]

theorem issue_reward_progress (db : DB) (c : Challenge) (p : Nat) :
    (issue_reward db c p).1.progress = db.progress := by
  by_cases h : has_reward db c.pk p = true <;> simp [issue_reward, h]

theorem reward_loop_challenges (l : List ProgressEntry) (db : DB) (c : Challenge) :
    (reward_loop db c l).1.challenges = db.challenges := by
  induction l generalizing db with
  | nil => rfl
  | cons e rest ih =>
    by_cases h : has_reward db c.pk e.player_id = true <;>
      simp [reward_loop, issue_reward, h, ih]

theorem reward_loop_progress (l : List ProgressEntry) (db : DB) (c : Challenge) :
    (reward_loop db c l).1.progress = db.progress := by
  induction l generalizing db with
  | nil => rfl
  | cons e rest ih =>
    by_cases h : has_reward db c.pk e.player_id = true <;>
      simp [reward_loop, issue_reward, h, ih]

theorem completion_rewards_challenges (db : DB) (c : Challenge) :
    (completion_rewards db c).1.challenges = db.challenges := by
  by_cases h : 0 < c.reward_balls <;>
    simp [completion_rewards, h, reward_loop_challenges]

theorem completion_rewards_progress (db : DB) (c : Challenge) :
    (completion_rewards db c).1.progress = db.progress := by
  by_cases h : 0 < c.reward_balls <;>
    simp [completion_rewards, h, reward_loop_progress]

theorem complete_challenge_find (s : CogState) (c ch : Challenge)
    (h : find_challenge s.db c.pk = some ch) :
    find_challenge (complete_challenge s c).db c.pk
      = some { ch with completed := true, completed_at := some s.now } := by
  show find_challenge
    (completion_rewards (persist_completion s.db c s.now)
      { c with completed := true, completed_at := some s.now }).1 c.pk = _
  rw [find_challenge_congr c.pk (completion_rewards_challenges _ _)]
  exact find_challenge_save s.db { c with completed := true, completed_at := some s.now } ch h

theorem check_and_complete_completes (s : CogState) (c : Challenge) (total : Int)
    (hge : ¬ total < (c.target_amount : Int)) (hncomp : c.completed = false)
    (hdb : find_challenge s.db c.pk = some c)
    (hcompleting : s.completing.contains c.pk = false) :
    ∃ ch : Challenge, find_challenge (check_and_complete s c total).db c.pk = some ch ∧
      ch.completed = true ∧ ch.completed_at = some s.now := by
  refine ⟨{ c with completed := true, completed_at := some s.now }, ?_, rfl, rfl⟩
  rw [show check_and_complete s c total
        = { complete_challenge { s with completing := s.completing ++ [c.pk] } c with
            completing :=
              (complete_challenge { s with completing := s.completing ++ [c.pk] } c).completing.erase c.pk,
            cache_dirty := true } by
        have hmem : c.pk ∉ s.completing := by simpa using hcompleting
        simp [check_and_complete, hge, hncomp, hdb, hmem]]
  exact complete_challenge_find { s with completing := s.completing ++ [c.pk] } c c hdb


theorem check_and_complete_fast_reject (s : CogState) (c : Challenge) (total : Int)
    (h : total < (c.target_amount : Int)) : check_and_complete s c total = s := by
  simp [check_and_complete, h]

/-- C3: for a challenge with target 100 and contributions summing to 99,
`check_and_complete` with any total below the target returns the state
unchanged (fast-reject, no mutation); and the catch that brings the total
to 100 completes the challenge within the same `handle_catch` call:
afterwards the stored row has `completed = true` with `completed_at` set to
the current time. -/
theorem C3_target_100 (s : CogState) (c : Challenge) (ev : CatchEvent)
    (htype : catch_types.contains c.challenge_type = true)
    (hcache : s.cache = [c]) (hdirty : s.cache_dirty = false)
    (hdb : find_challenge s.db c.pk = some c)
    (htarget : c.target_amount = 100)
    (hncomp : c.completed = false)
    (hmatch : catch_matches_challenge c ev = true)
    (hsum : challenge_sum s.db c.pk = 99)
    (hcompleting : s.completing.contains c.pk = false) :
    (∀ (s2 : CogState) (c2 : Challenge) (total : Int),
        total < (c2.target_amount : Int) → check_and_complete s2 c2 total = s2) ∧
    (∃ ch : Challenge, find_challenge (handle_catch s ev).db c.pk = some ch ∧
        ch.completed = true ∧ ch.completed_at = some s.now) := by
  refine ⟨fun s2 c2 total h => check_and_complete_fast_reject s2 c2 total h, ?_⟩
  have hhc : handle_catch s ev
      = check_and_complete { s with db := (add_progress s.db c.pk ev.player_id 1).1 } c
          (add_progress s.db c.pk ev.player_id 1).2 := by
    have hmem : c.challenge_type ∈ catch_types := by simpa using htype
    simp [handle_catch, ensure_cache, hdirty, hcache, hmem, process_catch, hmatch]
  rw [hhc]
  have htot : (add_progress s.db c.pk ev.player_id 1).2 = 100 := by
    rw [add_progress_sum, hsum]
    rfl
  rw [htot]
  have hge : ¬ (100 : Int) < (c.target_amount : Int) := by
    rw [htarget]
    omega
  have hdb' : find_challenge { s with db := (add_progress s.db c.pk ev.player_id 1).1 }.db c.pk
      = some c := hdb
  have := check_and_complete_completes
    { s with db := (add_progress s.db c.pk ev.player_id 1).1 } c 100 hge hncomp hdb' hcompleting
  simpa using this



/-- C3 witness: the 100th unit contribution on `sample_state`. -/
theorem C3_witness :
    (catch_types.contains sample_challenge.challenge_type = true ∧
     sample_state.cache = [sample_challenge] ∧ sample_state.cache_dirty = false ∧
     find_challenge sample_state.db sample_challenge.pk = some sample_challenge ∧
     sample_challenge.target_amount = 100 ∧ sample_challenge.completed = false ∧
     catch_matches_challenge sample_challenge sample_event = true ∧
     challenge_sum sample_state.db sample_challenge.pk = 99 ∧
     sample_state.completing.contains sample_challenge.pk = false) ∧
    ((∀ (s2 : CogState) (c2 : Challenge) (total : Int),
        total < (c2.target_amount : Int) → check_and_complete s2 c2 total = s2) ∧
      (∃ ch : Challenge, find_challenge (handle_catch sample_state sample_event).db sample_challenge.pk
          = some ch ∧ ch.completed = true ∧ ch.completed_at = some sample_state.now)) :=
  ⟨⟨by decide, rfl, rfl, by decide, rfl, rfl, by decide, by decide, by decide⟩,
    C3_target_100 sample_state sample_challenge sample_event (by decide) rfl rfl (by decide) rfl rfl
      (by decide) (by decide) (by decide)⟩

/-- C7 counterexample: the claim says a failure on one challenge must not
prevent the remaining matching challenges from being processed; but
`handle_catch` wraps no error handling around its loop body, so when the
storage increment of the first cached challenge raises, the call aborts
with the error and the second matching challenge receives no progress
entry. -/
theorem C7_cex :
    catch_matches_challenge C7_challengeB C7_event = true ∧
    handle_catch_failing [C7_challengeA.pk] C7_state C7_event = .error C7_state ∧
    find_progress C7_state.db.progress C7_challengeB.pk C7_event.player_id = none := by
  refine ⟨by decide, ?_, by decide⟩
  rfl

/-- C7 amended: `handle_catch` has no per-challenge error isolation: when
the storage increment for a matching challenge fails, the exception
propagates immediately with the state as of the failure, and the remaining
challenges in the loop are not processed. -/
theorem C7_failure_aborts_loop (fails : List Nat) (ev : CatchEvent) (s : CogState)
    (c : Challenge) (rest : List Challenge)
    (hmatch : catch_matches_challenge c ev = true)
    (hfail : fails.contains c.pk = true) :
    process_catch_failing fails ev s (c :: rest) = .error s := by
  have hmem : c.pk ∈ fails := by simpa using hfail
  simp [process_catch_failing, hmatch, hmem]

/-- C7 witness: a failing increment at the head of the loop aborts it. -/
theorem C7_witness :
    catch_matches_challenge C7_challengeA C7_event = true ∧
    ([C7_challengeA.pk].contains C7_challengeA.pk = true) ∧
    process_catch_failing [C7_challengeA.pk] C7_event C7_state [C7_challengeA, C7_challengeB]
      = .error C7_state :=
  ⟨by decide, by decide,
    C7_failure_aborts_loop [C7_challengeA.pk] C7_event C7_state C7_challengeA [C7_challengeB]
      (by decide) (by decide)⟩


theorem db_step_of_eq {db db' : DB} (h : db'.challenges = db.challenges) : db_step db db' := by
  refine ⟨by rw [h], ?_, ?_⟩
  · intro hinv c hc
    exact hinv c (by rw [← h]; exact hc)
  · intro i ch ch' h1 h2 hc
    rw [h, h1] at h2
    injection h2 with h2
    subst h2
    exact hc

theorem db_step_trans {db1 db2 db3 : DB} (h12 : db_step db1 db2) (h23 : db_step db2 db3) :
    db_step db1 db3 := by
  obtain ⟨hl12, hi12, hm12⟩ := h12
  obtain ⟨hl23, hi23, hm23⟩ := h23
  refine ⟨by omega, fun h => hi23 (hi12 h), ?_⟩
  intro i ch ch' h1 h3 hc
  have hi : i < db1.challenges.length := (List.getElem?_eq_some.mp h1).1
  have hi2 : i < db2.challenges.length := by omega
  have hmid : db2.challenges[i]? = some db2.challenges[i] := List.getElem?_eq_getElem hi2
  exact hm23 i _ ch' hmid h3 (hm12 i ch _ h1 hmid hc)

theorem db_step_map_upd {db db' : DB} (pk0 now0 : Nat)
    (h : db'.challenges = db.challenges.map (complete_upd pk0 now0)) : db_step db db' := by
  refine ⟨by rw [h, List.length_map], ?_, ?_⟩
  · intro hinv c hc
    rw [h] at hc
    rcases List.mem_map.mp hc with ⟨x, hx, rfl⟩
    by_cases hpk : (x.pk == pk0) = true
    · simp [complete_upd, hpk]
    · simp only [complete_upd, if_neg hpk]
      exact hinv x hx
  · intro i ch ch' h1 h2 hc
    rw [h, List.getElem?_map, h1] at h2
    injection h2 with h2
    subst h2
    by_cases hpk : (ch.pk == pk0) = true
    · simp [complete_upd, hpk]
    · simp only [complete_upd, if_neg hpk]
      exact hc

theorem complete_challenge_challenges (s : CogState) (c : Challenge) :
    (complete_challenge s c).db.challenges
      = s.db.challenges.map (complete_upd c.pk s.now) := by
  show (completion_rewards (persist_completion s.db c s.now) _).1.challenges = _
  rw [completion_rewards_challenges]
  rfl

theorem check_and_complete_step (s : CogState) (c : Challenge) (total : Int) :
    db_step s.db (check_and_complete s c total).db := by
  unfold check_and_complete
  by_cases h1 : (decide (total < (c.target_amount : Int)) || c.completed) = true
  · simp only [h1, if_pos]
    exact db_step_of_eq rfl
  · simp only [h1, if_neg, Bool.not_eq_true]
    cases hf : find_challenge s.db c.pk with
    | none => exact db_step_of_eq rfl
    | some refreshed =>
      by_cases h2 : (refreshed.completed || s.completing.contains c.pk) = true
      · simp only [h2, if_pos]
        exact db_step_of_eq rfl
      · simp only [h2, if_neg, Bool.not_eq_true]
        exact db_step_map_upd refreshed.pk s.now
          (complete_challenge_challenges { s with completing := s.completing ++ [c.pk] } refreshed)


theorem process_catch_step (ev : CatchEvent) (l : List Challenge) (s : CogState) :
    db_step s.db (process_catch ev s l).db := by
  induction l generalizing s with
  | nil => exact db_step_of_eq rfl
  | cons c rest ih =>
    by_cases hm : catch_matches_challenge c ev = true
    · simp only [process_catch, hm, if_pos]
      refine db_step_trans ?_ (ih _)
      refine db_step_trans (db_step_of_eq ?_) (check_and_complete_step _ c _)
      exact (add_progress_challenges s.db c.pk ev.player_id 1).symm
    · simp only [process_catch, hm, if_neg, Bool.not_eq_true]
      exact ih s

theorem handle_catch_step (s : CogState) (ev : CatchEvent) :
    db_step s.db (handle_catch s ev).db := by
  unfold handle_catch
  have hdb : (ensure_cache s).1.db = s.db := by
    unfold ensure_cache refresh_cache
    by_cases h : s.cache_dirty = true <;> simp [h]
  by_cases he : ((ensure_cache s).2.filter
      (fun c => catch_types.contains c.challenge_type)).isEmpty = true
  · simp only [he, if_pos]
    exact db_step_of_eq (by rw [hdb])
  · simp only [he, if_neg, Bool.not_eq_true]
    refine db_step_trans (db_step_of_eq (by rw [hdb])) (process_catch_step ev _ _)

/-- C9: the engine operations preserve the invariant that a completed
challenge carries a completion timestamp, and the `completed` flag is
monotone under them: `add_progress` leaves the challenge table untouched,
and `check_and_complete` and `handle_catch` preserve the invariant and
never reset `completed` from true to false. -/
theorem C9_completed_invariant (db : DB) (cid p : Nat) (d : Int)
    (s : CogState) (c : Challenge) (total : Int) (ev : CatchEvent) :
    ((add_progress db cid p d).1.challenges = db.challenges) ∧
    (challenge_inv db → challenge_inv (add_progress db cid p d).1) ∧
    (challenge_inv s.db → challenge_inv (check_and_complete s c total).db) ∧
    completed_monotone s.db (check_and_complete s c total).db ∧
    (challenge_inv s.db → challenge_inv (handle_catch s ev).db) ∧
    completed_monotone s.db (handle_catch s ev).db := by
  refine ⟨add_progress_challenges db cid p d, ?_, ?_, ?_, ?_, ?_⟩
  · exact (db_step_of_eq (add_progress_challenges db cid p d)).2.1
  · exact (check_and_complete_step s c total).2.1
  · exact (check_and_complete_step s c total).2.2
  · exact (handle_catch_step s ev).2.1
  · exact (handle_catch_step s ev).2.2

/-- C9 witness: the invariant and monotonicity at `sample_state`. -/
theorem C9_witness :
    challenge_inv sample_state.db ∧
    ((add_progress sample_state.db 1 5 1).1.challenges = sample_state.db.challenges) ∧
    challenge_inv (add_progress sample_state.db 1 5 1).1 ∧
    challenge_inv (check_and_complete sample_state sample_challenge 100).db ∧
    completed_monotone sample_state.db (check_and_complete sample_state sample_challenge 100).db ∧
    challenge_inv (handle_catch sample_state sample_event).db ∧
    completed_monotone sample_state.db (handle_catch sample_state sample_event).db := by
  have hinv : challenge_inv sample_state.db := by
    intro c hc hcomp
    simp [sample_state, sample_challenge] at hc
    rw [hc] at hcomp
    simp at hcomp
  have h := C9_completed_invariant sample_state.db 1 5 1 sample_state sample_challenge 100 sample_event
  exact ⟨hinv, h.1, h.2.1 hinv, h.2.2.1 hinv, h.2.2.2.1, h.2.2.2.2.1 hinv, h.2.2.2.2.2⟩


theorem has_reward_iff (db : DB) (cpk p : Nat) :
    has_reward db cpk p = true ↔ 1 ≤ reward_count db cpk p := by
  unfold has_reward reward_count
  rw [← List.countP_eq_length_filter]
  rw [Nat.succ_le, Nat.pos_iff_ne_zero]
  simp [List.any_eq_true, List.countP_eq_zero]

theorem reward_count_zero_of_not (db : DB) (cpk p : Nat)
    (h : ¬ has_reward db cpk p = true) : reward_count db cpk p = 0 := by
  rcases Nat.eq_zero_or_pos (reward_count db cpk p) with h0 | h1
  · exact h0
  · exact absurd ((has_reward_iff db cpk p).mpr h1) h

theorem reward_count_append (db : DB) (r : RewardRecord) (cpk p : Nat) :
    reward_count { db with rewards := db.rewards ++ [r] } cpk p
      = reward_count db cpk p
        + (if (r.challenge_id == cpk && r.player_id == p) = true then 1 else 0) := by
  by_cases h : (r.challenge_id == cpk && r.player_id == p) = true <;>
    simp [reward_count, List.filter_append, List.filter_cons, h]

theorem has_reward_append (db : DB) (r : RewardRecord) (cpk p : Nat) :
    has_reward { db with rewards := db.rewards ++ [r] } cpk p
      = (has_reward db cpk p || (r.challenge_id == cpk && r.player_id == p)) := by
  simp [has_reward, List.any_append]

theorem reward_loop_count (l : List ProgressEntry) (db : DB) (c : Challenge) (p : Nat) :
    reward_count (reward_loop db c l).1 c.pk p
      = if has_reward db c.pk p = true then reward_count db c.pk p
        else if l.any (fun e => e.player_id == p) = true then 1 else 0 := by
  induction l generalizing db with
  | nil =>
    by_cases h : has_reward db c.pk p = true
    · simp [reward_loop, h]
    · simp [reward_loop, h, reward_count_zero_of_not db c.pk p h]
  | cons e rest ih =>
    by_cases hhe : has_reward db c.pk e.player_id = true
    · have hred : (reward_loop db c (e :: rest)).1 = (reward_loop db c rest).1 := by
        simp [reward_loop, issue_reward, hhe]
      rw [hred, ih db]
      by_cases hp : has_reward db c.pk p = true
      · simp [hp]
      · have hep : (e.player_id == p) = false := by
          cases hq : (e.player_id == p)
          · rfl
          · have heq : e.player_id = p := by simpa using hq
            rw [heq] at hhe
            exact absurd hhe hp
        simp [hp, List.any_cons, hep]
    · have hred : (reward_loop db c (e :: rest)).1
          = (reward_loop { db with rewards :=
              db.rewards ++ [⟨c.pk, e.player_id, c.reward_balls⟩] } c rest).1 := by
        simp [reward_loop, issue_reward, hhe]
      rw [hred, ih]
      have hasd : has_reward { db with rewards :=
          db.rewards ++ [⟨c.pk, e.player_id, c.reward_balls⟩] } c.pk p
          = (has_reward db c.pk p || (e.player_id == p)) := by
        rw [has_reward_append]
        simp
      have cntd : reward_count { db with rewards :=
          db.rewards ++ [⟨c.pk, e.player_id, c.reward_balls⟩] } c.pk p
          = reward_count db c.pk p + (if (e.player_id == p) = true then 1 else 0) := by
        rw [reward_count_append]
        simp
      by_cases hp : has_reward db c.pk p = true
      · have hep : (e.player_id == p) = false := by
          cases hq : (e.player_id == p)
          · rfl
          · have heq : e.player_id = p := by simpa using hq
            rw [heq] at hhe
            exact absurd hp hhe
        rw [hasd, cntd]
        simp [hp, hep]
      · by_cases hq : (e.player_id == p) = true
        · rw [hasd, cntd]
          simp [hp, hq, List.any_cons, reward_count_zero_of_not db c.pk p hp]
        · rw [hasd]
          simp [hp, hq, List.any_cons]
theorem reward_loop_length (l : List ProgressEntry) (db : DB) (c : Challenge) :
    (reward_loop db c l).1.rewards.length
      = db.rewards.length + (reward_loop db c l).2 := by
  induction l generalizing db with
  | nil => rfl
  | cons e rest ih =>
    by_cases hhe : has_reward db c.pk e.player_id = true
    · simp [reward_loop, issue_reward, hhe, ih]
    · simp [reward_loop, issue_reward, hhe, ih]
      omega

theorem reward_loop_stable (l : List ProgressEntry) (db : DB) (c : Challenge)
    (h : ∀ e ∈ l, has_reward db c.pk e.player_id = true) :
    reward_loop db c l = (db, 0) := by
  induction l with
  | nil => rfl
  | cons e rest ih =>
    have hhe : has_reward db c.pk e.player_id = true := h e (List.mem_cons_self e rest)
    have hrest := ih (fun x hx => h x (List.mem_cons_of_mem e hx))
    simp [reward_loop, issue_reward, hhe, hrest]

theorem pos_entries_any (db : DB) (cpk p : Nat) :
    (pos_entries db cpk).any (fun e => e.player_id == p) = has_pos db cpk p := by
  rw [Bool.eq_iff_iff]
  unfold pos_entries has_pos
  simp only [List.any_eq_true, List.mem_filter]
  constructor
  · rintro ⟨e, ⟨he, hf⟩, hp⟩
    refine ⟨e, he, ?_⟩
    simp only [Bool.and_eq_true] at hf ⊢
    exact ⟨⟨hf.1, hp⟩, hf.2⟩
  · rintro ⟨e, he, hf⟩
    simp only [Bool.and_eq_true] at hf
    exact ⟨e, ⟨he, by simp [hf.1.1, hf.2]⟩, hf.1.2⟩

theorem completion_rewards_count (db : DB) (c : Challenge) (p : Nat)
    (hrb : 0 < c.reward_balls) (hno : has_reward db c.pk p = false) :
    reward_count (completion_rewards db c).1 c.pk p
      = if has_pos db c.pk p = true then 1 else 0 := by
  unfold completion_rewards
  rw [if_pos hrb]
  rw [reward_loop_count]
  rw [pos_entries_any]
  simp [hno]

theorem completion_rewards_saturates (db : DB) (c : Challenge)
    (hrb : 0 < c.reward_balls) :
    ∀ e ∈ pos_entries (completion_rewards db c).1 c.pk,
      has_reward (completion_rewards db c).1 c.pk e.player_id = true := by
  intro e he
  have hpos : e ∈ pos_entries db c.pk := by
    unfold pos_entries at he ⊢
    rw [show (completion_rewards db c).1.progress = db.progress from
          completion_rewards_progress db c] at he
    exact he
  have hany : (pos_entries db c.pk).any (fun x => x.player_id == e.player_id) = true := by
    simp only [List.any_eq_true]
    exact ⟨e, hpos, by simp⟩
  rw [has_reward_iff]
  unfold completion_rewards
  rw [if_pos hrb]
  rw [reward_loop_count]
  by_cases hp : has_reward db c.pk e.player_id = true
  · rw [if_pos hp]
    exact (has_reward_iff db c.pk e.player_id).mp hp
  · rw [if_neg hp, if_pos hany]

theorem iterate_rewards_stable (db1 : DB) (c : Challenge) (n : Nat)
    (hsat : ∀ e ∈ pos_entries db1 c.pk, has_reward db1 c.pk e.player_id = true) :
    iterate_rewards c n db1 = db1 := by
  induction n with
  | zero => rfl
  | succ m ih =>
    have hcr : completion_rewards db1 c = (db1, 0) := by
      unfold completion_rewards
      by_cases hrb : 0 < c.reward_balls
      · rw [if_pos hrb]
        exact reward_loop_stable _ db1 c hsat
      · rw [if_neg hrb]
    show iterate_rewards c m (completion_rewards db1 c).1 = db1
    rw [hcr]
    exact ih

theorem iterate_rewards_eq_first (db : DB) (c : Challenge) (n : Nat)
    (hrb : 0 < c.reward_balls) (hn : 1 ≤ n) :
    iterate_rewards c n db = (completion_rewards db c).1 := by
  cases n with
  | zero => omega
  | succ m =>
    show iterate_rewards c m (completion_rewards db c).1 = _
    exact iterate_rewards_stable _ c m (completion_rewards_saturates db c hrb)
/-- C2: reward issuance is idempotent.  From a store with no reward rows
for the challenge (and a positive per-player reward), running the
completion reward step any positive number of times leaves exactly one
RewardRecord per player having an entry with amount > 0; a further run
reports 0 newly rewarded players; the rewarded count returned equals the
number of newly created rows; and an insert for a pair that already holds
a reward returns failure without mutating the store — the uniqueness
violation is absorbed, never surfaced. -/
theorem C2_reward_idempotent (db : DB) (c : Challenge) (n : Nat)
    (hno : ∀ r ∈ db.rewards, (r.challenge_id == c.pk) = false)
    (hrb : 0 < c.reward_balls) (hn : 1 ≤ n) :
    (∀ p : Nat, reward_count (iterate_rewards c n db) c.pk p
        = if has_pos db c.pk p = true then 1 else 0) ∧
    (completion_rewards (iterate_rewards c n db) c).2 = 0 ∧
    (completion_rewards db c).1.rewards.length
      = db.rewards.length + (completion_rewards db c).2 ∧
    (∀ p : Nat, has_reward db c.pk p = true → issue_reward db c p = (db, false)) := by
  have hnop : ∀ p : Nat, has_reward db c.pk p = false := by
    intro p
    unfold has_reward
    rw [List.any_eq_false]
    intro r hr
    simp [hno r hr]
  refine ⟨?_, ?_, ?_, ?_⟩
  · intro p
    rw [iterate_rewards_eq_first db c n hrb hn]
    exact completion_rewards_count db c p hrb (hnop p)
  · rw [iterate_rewards_eq_first db c n hrb hn]
    have hcr : completion_rewards (completion_rewards db c).1 c
        = ((completion_rewards db c).1, 0) := by
      unfold completion_rewards
      rw [if_pos hrb, if_pos hrb]
      exact reward_loop_stable _ _ c (by
        have := completion_rewards_saturates db c hrb
        unfold completion_rewards at this
        rw [if_pos hrb] at this
        exact this)
    rw [hcr]
  · unfold completion_rewards
    rw [if_pos hrb]
    exact reward_loop_length _ db c
  · intro p h
    simp [issue_reward, h]

/-- C2 witness: two reward runs over a one-contributor store. -/
theorem C2_witness :
    (∀ r ∈ (DB.mk [] [⟨1, 7, 5⟩] []).rewards, (r.challenge_id == 1) = false) ∧
    (0 < (2 : Nat)) ∧ (1 ≤ 2) ∧
    ((∀ p : Nat, reward_count
        (iterate_rewards ⟨1, .catchAny, none, none, 100, 2, true, true, some 3⟩ 2
          ⟨[], [⟨1, 7, 5⟩], []⟩)
        1 p = if has_pos ⟨[], [⟨1, 7, 5⟩], []⟩ 1 p = true then 1 else 0) ∧
      (completion_rewards
        (iterate_rewards ⟨1, .catchAny, none, none, 100, 2, true, true, some 3⟩ 2
          ⟨[], [⟨1, 7, 5⟩], []⟩)
        ⟨1, .catchAny, none, none, 100, 2, true, true, some 3⟩).2 = 0 ∧
      (completion_rewards ⟨[], [⟨1, 7, 5⟩], []⟩
        ⟨1, .catchAny, none, none, 100, 2, true, true, some 3⟩).1.rewards.length
        = (DB.mk [] [⟨1, 7, 5⟩] []).rewards.length
          + (completion_rewards ⟨[], [⟨1, 7, 5⟩], []⟩
              ⟨1, .catchAny, none, none, 100, 2, true, true, some 3⟩).2 ∧
      (∀ p : Nat, has_reward (DB.mk [] [⟨1, 7, 5⟩] []) 1 p = true →
        issue_reward ⟨[], [⟨1, 7, 5⟩], []⟩
          ⟨1, .catchAny, none, none, 100, 2, true, true, some 3⟩ p
          = (⟨[], [⟨1, 7, 5⟩], []⟩, false))) :=
  ⟨by decide, by decide, by decide,
    C2_reward_idempotent ⟨[], [⟨1, 7, 5⟩], []⟩
      ⟨1, .catchAny, none, none, 100, 2, true, true, some 3⟩ 2
      (by decide) (by decide) (by decide)⟩
theorem pairwise_unique_eq (l : List ProgressEntry) (h : pairwise_uniqueb l = true)
    (e e' : ProgressEntry) (he : e ∈ l) (he' : e' ∈ l)
    (hc : e.challenge_id = e'.challenge_id) (hp : e.player_id = e'.player_id) : e = e' := by
  induction l with
  | nil => exact absurd he (List.not_mem_nil e)
  | cons a rest ih =>
    have h1 : rest.all (fun x =>
        !(x.challenge_id == a.challenge_id && x.player_id == a.player_id)) = true :=
      ((Bool.and_eq_true _ _).mp h).1
    have h2 : pairwise_uniqueb rest = true := ((Bool.and_eq_true _ _).mp h).2
    rcases List.mem_cons.mp he with rfl | hm
    · rcases List.mem_cons.mp he' with rfl | hm'
      · rfl
      · have hx := List.all_eq_true.mp h1 e' hm'
        simp [← hc, ← hp] at hx
    · rcases List.mem_cons.mp he' with rfl | hm'
      · have hx := List.all_eq_true.mp h1 e hm
        simp [hc, hp] at hx
      · exact ih h2 hm hm'

/-- C10: `_top_contributors` places no lower bound on the amount while
reward issuance does: an entry with amount 0 appears in the leaderboard
(whenever the challenge's entries fit in the limit), yet the completion
reward step enumerates only entries with amount > 0, so that player never
receives a RewardRecord. -/
theorem C10_zero_entry_listed_not_rewarded (db : DB) (c : Challenge) (p : Nat) (limit : Nat)
    (e : ProgressEntry) (he : e ∈ db.progress) (hcid : e.challenge_id = c.pk)
    (hpid : e.player_id = p) (hz : e.amount = 0)
    (huniq : pairwise_uniqueb db.progress = true)
    (hlen : (challenge_entries db c.pk).length ≤ limit)
    (hno : has_reward db c.pk p = false) :
    (∃ x ∈ top_contributors db c.pk limit, x.player_id = p) ∧
    has_reward (completion_rewards db c).1 c.pk p = false := by
  constructor
  · refine ⟨e, ?_, hpid⟩
    have hent : e ∈ challenge_entries db c.pk := by
      unfold challenge_entries
      rw [List.mem_filter]
      exact ⟨he, by simp [hcid]⟩
    have hperm := List.mergeSort_perm (challenge_entries db c.pk)
      (fun a b => decide (b.amount ≤ a.amount))
    have hsorted : e ∈ (challenge_entries db c.pk).mergeSort
        (fun a b => decide (b.amount ≤ a.amount)) := hperm.mem_iff.mpr hent
    unfold top_contributors
    rw [List.take_of_length_le (by rw [hperm.length_eq]; exact hlen)]
    exact hsorted
  · have hhp : has_pos db c.pk p = false := by
      cases hv : has_pos db c.pk p
      · rfl
      · exfalso
        obtain ⟨e', he', hpred⟩ := List.any_eq_true.mp hv
        simp only [Bool.and_eq_true, beq_iff_eq, decide_eq_true_eq] at hpred
        have : e = e' := pairwise_unique_eq db.progress huniq e e' he he'
          (by rw [hcid, hpred.1.1]) (by rw [hpid, hpred.1.2])
        rw [← this] at hpred
        rw [hz] at hpred
        exact absurd hpred.2 (by omega)
    by_cases hrb : 0 < c.reward_balls
    · have hcount : reward_count (completion_rewards db c).1 c.pk p = 0 := by
        rw [completion_rewards_count db c p hrb hno]
        simp [hhp]
      cases hres : has_reward (completion_rewards db c).1 c.pk p
      · rfl
      · have := (has_reward_iff _ _ _).mp hres
        omega
    · unfold completion_rewards
      rw [if_neg hrb]
      exact hno

/-- C10 witness: a single zero-amount entry, listed but never rewarded. -/
theorem C10_witness :
    ((⟨1, 7, 0⟩ : ProgressEntry) ∈ (DB.mk [] [⟨1, 7, 0⟩] []).progress ∧
     (⟨1, 7, 0⟩ : ProgressEntry).challenge_id = 1 ∧
     (⟨1, 7, 0⟩ : ProgressEntry).player_id = 7 ∧
     (⟨1, 7, 0⟩ : ProgressEntry).amount = 0 ∧
     pairwise_uniqueb (DB.mk [] [⟨1, 7, 0⟩] []).progress = true ∧
     (challenge_entries ⟨[], [⟨1, 7, 0⟩], []⟩ 1).length ≤ 10 ∧
     has_reward ⟨[], [⟨1, 7, 0⟩], []⟩ 1 7 = false) ∧
    ((∃ x ∈ top_contributors ⟨[], [⟨1, 7, 0⟩], []⟩ 1 10, x.player_id = 7) ∧
      has_reward (completion_rewards ⟨[], [⟨1, 7, 0⟩], []⟩
        ⟨1, .catchAny, none, none, 100, 2, true, true, some 3⟩).1 1 7 = false) :=
  ⟨⟨by decide, rfl, rfl, rfl, by decide, by decide, by decide⟩,
    C10_zero_entry_listed_not_rewarded ⟨[], [⟨1, 7, 0⟩], []⟩
      ⟨1, .catchAny, none, none, 100, 2, true, true, some 3⟩ 7 10 ⟨1, 7, 0⟩
      (by decide) rfl rfl rfl (by decide) (by decide) (by decide)⟩

theorem countP_set_add {α : Type} (p : α → Bool) (l : List α) (i : Nat) (a b : α)
    (h : l[i]? = some a) :
    (l.set i b).countP p + (if p a = true then 1 else 0)
      = l.countP p + (if p b = true then 1 else 0) := by
  induction l generalizing i with
  | nil => simp at h
  | cons x xs ih =>
    cases i with
    | zero =>
      simp only [List.getElem?_cons_zero] at h
      injection h with h
      rw [show (x :: xs).set 0 b = b :: xs from rfl]
      rw [List.countP_cons, List.countP_cons, h]
      omega
    | succ n =>
      simp only [List.getElem?_cons_succ] at h
      rw [show (x :: xs).set (n + 1) b = x :: xs.set n b from rfl]
      rw [List.countP_cons, List.countP_cons]
      have := ih n h
      omega

theorem countP_le_add {α : Type} (p q r : α → Bool) (l : List α)
    (h : ∀ x, p x = true → q x = true ∨ r x = true) :
    l.countP p ≤ l.countP q + l.countP r := by
  induction l with
  | nil => simp
  | cons x xs ih =>
    rw [List.countP_cons, List.countP_cons, List.countP_cons]
    by_cases hp : p x = true
    · rcases h x hp with hq | hr
      · simp only [hp, hq, if_pos]
        omega
      · simp only [hp, hr, if_pos]
        omega
    · rw [if_neg hp]
      omega

theorem race_inv_step {s s' : RaceState} (hstep : RaceStep s s') (hinv : race_inv s) :
    race_inv s' := by
  obtain ⟨i1, i2, i3, i4, i5⟩ := hinv
  cases hstep with
  | fast_reject i t hget hph hcond =>
    have hL := countP_set_add is_live s.tasks i t { t with phase := .rejected } hget
    have hP := countP_set_add is_persisted s.tasks i t { t with phase := .rejected } hget
    have hH := countP_set_add is_heralded s.tasks i t { t with phase := .rejected } hget
    have hE := countP_set_add is_engaged s.tasks i t { t with phase := .rejected } hget
    simp [is_live, is_persisted, is_heralded, is_engaged, hph] at hL hP hH hE
    exact ⟨by rw [show ({ s with tasks := s.tasks.set i { t with phase := .rejected } } :
        RaceState).tasks.countP is_live = s.tasks.countP is_live from hL]; exact i1,
      by rw [show ({ s with tasks := s.tasks.set i { t with phase := .rejected } } :
        RaceState).tasks.countP is_persisted = s.tasks.countP is_persisted from hP]; exact i2,
      by rw [show ({ s with tasks := s.tasks.set i { t with phase := .rejected } } :
        RaceState).tasks.countP is_heralded = s.tasks.countP is_heralded from hH]; exact i3,
      by rw [show ({ s with tasks := s.tasks.set i { t with phase := .rejected } } :
        RaceState).tasks.countP is_persisted = s.tasks.countP is_persisted from hP]; exact i4,
      by rw [show ({ s with tasks := s.tasks.set i { t with phase := .rejected } } :
        RaceState).tasks.countP is_engaged = s.tasks.countP is_engaged from hE]; exact i5⟩
  | locked_reject i t hget hph hcond hbusy =>
    have hL := countP_set_add is_live s.tasks i t { t with phase := .rejected } hget
    have hP := countP_set_add is_persisted s.tasks i t { t with phase := .rejected } hget
    have hH := countP_set_add is_heralded s.tasks i t { t with phase := .rejected } hget
    have hE := countP_set_add is_engaged s.tasks i t { t with phase := .rejected } hget
    simp [is_live, is_persisted, is_heralded, is_engaged, hph] at hL hP hH hE
    exact ⟨by rw [show ({ s with tasks := s.tasks.set i { t with phase := .rejected } } :
        RaceState).tasks.countP is_live = s.tasks.countP is_live from hL]; exact i1,
      by rw [show ({ s with tasks := s.tasks.set i { t with phase := .rejected } } :
        RaceState).tasks.countP is_persisted = s.tasks.countP is_persisted from hP]; exact i2,
      by rw [show ({ s with tasks := s.tasks.set i { t with phase := .rejected } } :
        RaceState).tasks.countP is_heralded = s.tasks.countP is_heralded from hH]; exact i3,
      by rw [show ({ s with tasks := s.tasks.set i { t with phase := .rejected } } :
        RaceState).tasks.countP is_persisted = s.tasks.countP is_persisted from hP]; exact i4,
      by rw [show ({ s with tasks := s.tasks.set i { t with phase := .rejected } } :
        RaceState).tasks.countP is_engaged = s.tasks.countP is_engaged from hE]; exact i5⟩
  | guard_pass i t hget hph hcond hdb hcpl =>
    have hL := countP_set_add is_live s.tasks i t { t with phase := .marked } hget
    have hP := countP_set_add is_persisted s.tasks i t { t with phase := .marked } hget
    have hH := countP_set_add is_heralded s.tasks i t { t with phase := .marked } hget
    have hE := countP_set_add is_engaged s.tasks i t { t with phase := .marked } hget
    simp [is_live, is_persisted, is_heralded, is_engaged, hph] at hL hP hH hE
    rw [hcpl] at i1
    simp only [cond_false] at i1
    have hP0 : s.tasks.countP is_persisted = 0 := by
      rcases Nat.eq_zero_or_pos (s.tasks.countP is_persisted) with h0 | h1
      · exact h0
      · rw [i4.mpr h1] at hdb
        exact absurd hdb (by simp)
    have hE1 : s.tasks.countP is_engaged ≤ 0 := by
      have hsub := countP_le_add is_engaged is_live is_persisted s.tasks (by
        intro x hx
        unfold is_engaged at hx
        unfold is_live is_persisted
        cases hxp : x.phase <;> simp [hxp] at hx ⊢)
      omega
    refine ⟨?_, ?_, ?_, ?_, ?_⟩
    · show (s.tasks.set i { t with phase := .marked }).countP is_live = cond true 1 0
      simp only [cond_true]
      omega
    · show s.saves = (s.tasks.set i { t with phase := .marked }).countP is_persisted
      omega
    · show s.announces = (s.tasks.set i { t with phase := .marked }).countP is_heralded
      omega
    · show s.db_completed = true ↔
        1 ≤ (s.tasks.set i { t with phase := .marked }).countP is_persisted
      rw [hP]
      exact i4
    · show (s.tasks.set i { t with phase := .marked }).countP is_engaged ≤ 1
      omega
  | save i t now hget hph =>
    have hL := countP_set_add is_live s.tasks i t { t with phase := .saved } hget
    have hP := countP_set_add is_persisted s.tasks i t { t with phase := .saved } hget
    have hH := countP_set_add is_heralded s.tasks i t { t with phase := .saved } hget
    have hE := countP_set_add is_engaged s.tasks i t { t with phase := .saved } hget
    simp [is_live, is_persisted, is_heralded, is_engaged, hph] at hL hP hH hE
    refine ⟨?_, ?_, ?_, ?_, ?_⟩
    · show (s.tasks.set i { t with phase := .saved }).countP is_live = cond s.completing 1 0
      rw [hL]
      exact i1
    · show s.saves + 1 = (s.tasks.set i { t with phase := .saved }).countP is_persisted
      omega
    · show s.announces = (s.tasks.set i { t with phase := .saved }).countP is_heralded
      rw [hH]
      exact i3
    · show (true = true) ↔ 1 ≤ (s.tasks.set i { t with phase := .saved }).countP is_persisted
      constructor
      · intro h0
        omega
      · intro h0
        rfl
    · show (s.tasks.set i { t with phase := .saved }).countP is_engaged ≤ 1
      rw [hE]
      exact i5
  | announce i t hget hph =>
    have hL := countP_set_add is_live s.tasks i t { t with phase := .announced } hget
    have hP := countP_set_add is_persisted s.tasks i t { t with phase := .announced } hget
    have hH := countP_set_add is_heralded s.tasks i t { t with phase := .announced } hget
    have hE := countP_set_add is_engaged s.tasks i t { t with phase := .announced } hget
    simp [is_live, is_persisted, is_heralded, is_engaged, hph] at hL hP hH hE
    refine ⟨?_, ?_, ?_, ?_, ?_⟩
    · show (s.tasks.set i { t with phase := .announced }).countP is_live
        = cond s.completing 1 0
      rw [hL]
      exact i1
    · show s.saves = (s.tasks.set i { t with phase := .announced }).countP is_persisted
      rw [hP]
      exact i2
    · show s.announces + 1 = (s.tasks.set i { t with phase := .announced }).countP is_heralded
      omega
    · show s.db_completed = true ↔
        1 ≤ (s.tasks.set i { t with phase := .announced }).countP is_persisted
      rw [hP]
      exact i4
    · show (s.tasks.set i { t with phase := .announced }).countP is_engaged ≤ 1
      rw [hE]
      exact i5
  | cleanup i t hget hph =>
    have hL := countP_set_add is_live s.tasks i t { t with phase := .finished } hget
    have hP := countP_set_add is_persisted s.tasks i t { t with phase := .finished } hget
    have hH := countP_set_add is_heralded s.tasks i t { t with phase := .finished } hget
    have hE := countP_set_add is_engaged s.tasks i t { t with phase := .finished } hget
    simp [is_live, is_persisted, is_heralded, is_engaged, hph] at hL hP hH hE
    have hmem : t ∈ s.tasks := List.getElem?_mem hget
    have hlive : 1 ≤ s.tasks.countP is_live := by
      rw [show (1 : Nat) ≤ s.tasks.countP is_live ↔ 0 < s.tasks.countP is_live from
        Iff.rfl]
      exact List.countP_pos.mpr ⟨t, hmem, by simp [is_live, hph]⟩
    have hcmpl : s.completing = true := by
      cases hc : s.completing
      · rw [hc] at i1
        simp only [cond_false] at i1
        omega
      · rfl
    rw [hcmpl] at i1
    simp only [cond_true] at i1
    refine ⟨?_, ?_, ?_, ?_, ?_⟩
    · show (s.tasks.set i { t with phase := .finished }).countP is_live = cond false 1 0
      simp only [cond_false]
      omega
    · show s.saves = (s.tasks.set i { t with phase := .finished }).countP is_persisted
      rw [hP]
      exact i2
    · show s.announces = (s.tasks.set i { t with phase := .finished }).countP is_heralded
      rw [hH]
      exact i3
    · show s.db_completed = true ↔
        1 ≤ (s.tasks.set i { t with phase := .finished }).countP is_persisted
      rw [hP]
      exact i4
    · show (s.tasks.set i { t with phase := .finished }).countP is_engaged ≤ 1
      rw [hE]
      exact i5
theorem race_inv_init (s0 : RaceState) (hinit : race_init s0) : race_inv s0 := by
  obtain ⟨hph, hdb, hcpl, hsv, han⟩ := hinit
  have hz : ∀ p : TriggerTask → Bool, (∀ t : TriggerTask, t.phase = .start → p t = false) →
      s0.tasks.countP p = 0 := by
    intro p hp
    rw [List.countP_eq_zero]
    intro t ht
    simp [hp t (hph t ht)]
  refine ⟨?_, ?_, ?_, ?_, ?_⟩
  · rw [hz is_live (fun t ht => by simp [is_live, ht]), hcpl]
    rfl
  · rw [hz is_persisted (fun t ht => by simp [is_persisted, ht]), hsv]
  · rw [hz is_heralded (fun t ht => by simp [is_heralded, ht]), han]
  · rw [hz is_persisted (fun t ht => by simp [is_persisted, ht]), hdb]
    simp
  · rw [hz is_engaged (fun t ht => by simp [is_engaged, ht])]
    omega

theorem race_inv_reach {s0 s : RaceState} (hinit : race_init s0)
    (hreach : Relation.ReflTransGen RaceStep s0 s) : race_inv s := by
  induction hreach with
  | refl => exact race_inv_init s0 hinit
  | tail hr hstep ih => exact race_inv_step hstep ih

/-- C1: under any interleaving of concurrent completion triggers for one
challenge, starting from an active challenge (every task pending, the
completing marker clear, nothing persisted), `completed_at` is assigned at
most once and the Announcer is invoked at most once; and any trigger that,
under the lock, finds the fresh-read challenge already completed or its id
already in the completing set takes the rejecting transition, which mutates
none of the shared state. -/
theorem C1_completion_exactly_once (s0 s : RaceState)
    (hinit : race_init s0)
    (hreach : Relation.ReflTransGen RaceStep s0 s) :
    s.saves ≤ 1 ∧ s.announces ≤ 1 ∧
    (∀ (a : RaceState) (i : Nat) (t : TriggerTask),
      a.tasks[i]? = some t → t.phase = .start →
      ¬(t.total < a.target ∨ t.stale_completed = true) →
      (a.db_completed = true ∨ a.completing = true) →
      RaceStep a { a with tasks := a.tasks.set i { t with phase := .rejected } } ∧
      ({ a with tasks := a.tasks.set i { t with phase := .rejected } } : RaceState).db_completed
          = a.db_completed ∧
      ({ a with tasks := a.tasks.set i { t with phase := .rejected } } : RaceState).db_completed_at
          = a.db_completed_at ∧
      ({ a with tasks := a.tasks.set i { t with phase := .rejected } } : RaceState).completing
          = a.completing ∧
      ({ a with tasks := a.tasks.set i { t with phase := .rejected } } : RaceState).saves
          = a.saves ∧
      ({ a with tasks := a.tasks.set i { t with phase := .rejected } } : RaceState).announces
          = a.announces) := by
  obtain ⟨i1, i2, i3, i4, i5⟩ := race_inv_reach hinit hreach
  have hpe : s.tasks.countP is_persisted ≤ s.tasks.countP is_engaged :=
    List.countP_mono_left (fun t _ ht => by
      unfold is_persisted at ht
      unfold is_engaged
      cases htp : t.phase <;> simp [htp] at ht ⊢)
  have hhe : s.tasks.countP is_heralded ≤ s.tasks.countP is_engaged :=
    List.countP_mono_left (fun t _ ht => by
      unfold is_heralded at ht
      unfold is_engaged
      cases htp : t.phase <;> simp [htp] at ht ⊢)
  refine ⟨by omega, by omega, ?_⟩
  intro a i t hget hph hcond hbusy
  exact ⟨RaceStep.locked_reject a i t hget hph hcond hbusy, rfl, rfl, rfl, rfl, rfl⟩

/-- C1 witness: two pending triggers over target 50, at the initial
state. -/
theorem C1_witness :
    race_init ⟨[⟨100, false, .start⟩, ⟨100, false, .start⟩], 50, false, none, false, 0, 0⟩ ∧
    ((⟨[⟨100, false, .start⟩, ⟨100, false, .start⟩], 50, false, none, false, 0, 0⟩ :
        RaceState).saves ≤ 1 ∧
      (⟨[⟨100, false, .start⟩, ⟨100, false, .start⟩], 50, false, none, false, 0, 0⟩ :
        RaceState).announces ≤ 1 ∧
      (∀ (a : RaceState) (i : Nat) (t : TriggerTask),
        a.tasks[i]? = some t → t.phase = .start →
        ¬(t.total < a.target ∨ t.stale_completed = true) →
        (a.db_completed = true ∨ a.completing = true) →
        RaceStep a { a with tasks := a.tasks.set i { t with phase := .rejected } } ∧
        ({ a with tasks := a.tasks.set i { t with phase := .rejected } } :
            RaceState).db_completed = a.db_completed ∧
        ({ a with tasks := a.tasks.set i { t with phase := .rejected } } :
            RaceState).db_completed_at = a.db_completed_at ∧
        ({ a with tasks := a.tasks.set i { t with phase := .rejected } } :
            RaceState).completing = a.completing ∧
        ({ a with tasks := a.tasks.set i { t with phase := .rejected } } :
            RaceState).saves = a.saves ∧
        ({ a with tasks := a.tasks.set i { t with phase := .rejected } } :
            RaceState).announces = a.announces)) :=
  ⟨⟨by decide, rfl, rfl, rfl, rfl⟩,
    C1_completion_exactly_once
      ⟨[⟨100, false, .start⟩, ⟨100, false, .start⟩], 50, false, none, false, 0, 0⟩
      ⟨[⟨100, false, .start⟩, ⟨100, false, .start⟩], 50, false, none, false, 0, 0⟩
      ⟨by decide, rfl, rfl, rfl, rfl⟩ Relation.ReflTransGen.refl⟩

end CommunityChallenge
